import Mathlib

/-!
Verification of the typed relational-query layer (`patito` duckdb Relation
abstraction) against its natural-language specification.

The repository ships only the test suite for this layer; the implementation
module itself is not part of the sources at hand, so the data model and the
operations below are modelled from the specification document (each such
definition carries a doc comment starting with `Modelled from the spec:`).
The underlying analytical engine is out of scope in the specification; a
Relation is therefore represented directly by its materialized query result
(ordered column metadata plus ordered rows), which is exactly the observable
the specification's equality, iteration and materialization semantics are
stated over.
-/

set_option autoImplicit false

namespace Patito

/-- Modelled from the spec: a dynamically-typed SQL value as returned by the
engine (the missing implementation module's row values).  Integers, strings,
booleans and the SQL NULL sentinel suffice for the specified behaviours. -/
inductive Value where
  | null
  | int (i : Int)
  | str (s : String)
  | bool (b : Bool)
deriving DecidableEq

/-- A row viewed as a (column-name, value) mapping, the representation the
spec uses for equality, iteration and `get`. -/
abbrev NamedRow := List (String × Value)

/-- Modelled from the spec: the error taxonomy of the missing implementation
module (composition errors are `TypeError`/`ValueError`, cardinality errors
are `RuntimeError`), each carrying its message. -/
inductive RelError where
  | runtimeError (msg : String)
  | typeError (msg : String)
  | valueError (msg : String)
deriving DecidableEq

/-- Modelled from the spec: an opaque reference to an external row-schema
("model"); the spec treats the Row Schema Contract as an external
collaborator, so only the identity of the bound schema matters here. -/
structure Model where
  id : Nat
deriving DecidableEq

/-- Modelled from the spec: the Relation abstraction of the missing
implementation module, represented by its materialized engine result:
the ordered list of (column name, engine type name) pairs, the ordered rows
(positional values aligned with the columns), and the optional bound
row-schema reference. -/
structure Relation where
  cols : List (String × String)
  rows : List (List Value)
  model : Option Model
deriving DecidableEq

namespace Relation

/-- The ordered current column-name list (engine-derived). -/
def columns (r : Relation) : List String :=
  r.cols.map Prod.fst

/-- The engine type names of the columns, in column order. -/
def types (r : Relation) : List String :=
  r.cols.map Prod.snd

/-- View one positional row of `r` as a (column-name, value) mapping. -/
def named (r : Relation) (row : List Value) : NamedRow :=
  r.columns.zip row

/-- Modelled from the spec: iteration over a Relation produces the sequence
of constructed row objects in the query's current result order; with no
bound model these are dynamically-typed (column-name, value) mappings. -/
def toRows (r : Relation) : List NamedRow :=
  r.rows.map r.named

end Relation

/-- Row-level comparison used by Relation equality: two named rows agree when
they hold the same set of (column-name, value) pairs, so the same named
values under different column orderings compare equal. -/
def rowEqb (a b : NamedRow) : Bool :=
  a.all (fun p => b.contains p) && b.all (fun p => a.contains p)

/-- Pointwise comparison of two ordered sequences of named rows. -/
def rowsEqb : List NamedRow → List NamedRow → Bool
  | [], [] => true
  | a :: as, b :: bs => rowEqb a b && rowsEqb as bs
  | _, _ => false

namespace Relation

/-- Modelled from the spec: Relation equality is content equality over the
engine's materialized query result — the two ordered row sequences, each row
viewed as a set of named columns — never equality of SQL text. -/
def eqb (r s : Relation) : Bool :=
  rowsEqb r.toRows s.toRows

/-- Modelled from the spec: `project` restricted to named-column selection
(the form used by subscript access): keeps the listed columns in the given
order; the bound schema is dropped. -/
def project (r : Relation) (names : List String) : Relation :=
  { cols := names.filterMap (fun n => r.cols.find? (fun c => c.1 == n)),
    rows := r.rows.map (fun row => names.filterMap (fun n => List.lookup n (r.named row))),
    model := none }

/-- Modelled from the spec: subscripting with a single string selects one
column via `project` (still a multi-row, single-column relation). -/
def getColumn (r : Relation) (name : String) : Relation :=
  r.project [name]

/-- Modelled from the spec: subscripting with a list of strings selects those
columns as a projection via `project`. -/
def getColumns (r : Relation) (names : List String) : Relation :=
  r.project names

/-- Modelled from the spec: `filter` keeps the rows satisfying the boolean
predicate (the shallow embedding of the SQL boolean expression); columns and
the bound schema are preserved. -/
def filter (r : Relation) (p : NamedRow → Bool) : Relation :=
  { r with rows := r.rows.filter (fun row => p (r.named row)) }

/-- Modelled from the spec: `filter` with several predicate fragments ANDs
them; with no fragments the relation is unchanged. -/
def filterAll (r : Relation) (ps : List (NamedRow → Bool)) : Relation :=
  ps.foldl (fun acc p => acc.filter p) r

/-- Modelled from the spec: `limit` keeps a prefix of the rows; columns and
the bound schema are preserved. -/
def limit (r : Relation) (n : Nat) : Relation :=
  { r with rows := r.rows.take n }

end Relation

/-- Insert `x` into a list assumed sorted by `le`, keeping it sorted. -/
def insertSorted {α : Type} (le : α → α → Bool) (x : α) : List α → List α
  | [] => [x]
  | y :: ys => if le x y then x :: y :: ys else y :: insertSorted le x ys

/-- Insertion sort by the boolean comparison `le`. -/
def sortBy {α : Type} (le : α → α → Bool) : List α → List α
  | [] => []
  | x :: xs => insertSorted le x (sortBy le xs)

namespace Relation

/-- Modelled from the spec: `order` re-sorts the rows by the given ordering
(the shallow embedding of the SQL ORDER BY fragment); columns and the bound
schema are preserved. -/
def order (r : Relation) (le : NamedRow → NamedRow → Bool) : Relation :=
  { r with rows := sortBy (fun a b => le (r.named a) (r.named b)) r.rows }

/-- Modelled from the spec: `drop` removes the named columns, keeping the
rest in order; it goes through a projection, so the bound schema is dropped. -/
def dropColumns (r : Relation) (names : List String) : Relation :=
  r.project (r.columns.filter (fun c => !(names.contains c)))

/-- Modelled from the spec: `set_model` returns a new Relation with the given
schema bound (or cleared), same query result. -/
def set_model (r : Relation) (m : Option Model) : Relation :=
  { r with model := m }

end Relation

/-- The rename composition-error message: states the missing name and lists
the relation's current columns. -/
def renameErrorMsg (old : String) (cols : List String) : String :=
  let colList := String.intercalate ", " cols
  s!"Column '{old}' can not be renamed as it does not exist. The columns of the relation are: {colList}."

/-- Collapse a list of (final-name, source-name) bindings so that each final
name appears once: a later binding overwrites the value of an earlier one
with the same final name (last write wins), at the earlier one's position. -/
def collapseBindings : List (String × String) → List (String × String)
  | [] => []
  | (n, s) :: rest =>
      match collapseBindings rest with
      | tail => if (rest.map Prod.fst).contains n then tail else (n, s) :: tail

namespace Relation

/-- Modelled from the spec: `rename` with a mapping old→new fails with a
`ValueError` if an old name is not present in the current column list (the
message states the missing name and lists the current columns); otherwise it
removes the old columns and appends each old column under its new name, and
overwriting an existing column name is permitted, last write winning. -/
def rename (r : Relation) (m : List (String × String)) : Except RelError Relation :=
  match m.find? (fun p => !(r.columns.contains p.1)) with
  | some p => .error (.valueError (renameErrorMsg p.1 r.columns))
  | none =>
      let kept := (r.columns.filter (fun c => !((m.map Prod.fst).contains c))).map
        (fun c => (c, c))
      let bindings := collapseBindings (kept ++ m.map (fun p => (p.2, p.1)))
      .ok { cols := bindings.filterMap
              (fun b => (r.cols.find? (fun c => c.1 == b.2)).map (fun c => (b.1, c.2))),
            rows := r.rows.map
              (fun row => bindings.filterMap (fun b => List.lookup b.2 (r.named row))),
            model := none }

end Relation

/-- Keep the first occurrence of each element, dropping later duplicates. -/
def dedupFirst {α : Type} [BEq α] : List α → List α
  | [] => []
  | x :: xs => x :: (dedupFirst xs).filter (fun y => !(y == x))

/-- An aggregation request: result column name, its engine type, and the
aggregate of a group of rows (the shallow embedding of the SQL aggregate
expression). -/
structure AggSpec where
  name : String
  ty : String
  fn : List NamedRow → Value

namespace Relation

/-- Modelled from the spec: `aggregate` groups the rows by the values of the
`group_by` columns (first-occurrence order) and evaluates each aggregate
expression over each group; the result columns are the group-by columns
followed by the aggregate columns, and the bound schema is dropped. -/
def aggregate (r : Relation) (groupBy : List String) (aggs : List AggSpec) : Relation :=
  let key := fun (row : NamedRow) => groupBy.map (fun g => List.lookup g row)
  let keys := dedupFirst (r.toRows.map key)
  { cols := groupBy.filterMap (fun g => r.cols.find? (fun c => c.1 == g))
      ++ aggs.map (fun a => (a.name, a.ty)),
    rows := keys.map (fun k =>
      let group := r.toRows.filter (fun row => key row == k)
      k.filterMap id ++ aggs.map (fun a => a.fn group)),
    model := none }

end Relation

/-- The two supported join kinds. -/
inductive JoinKind where
  | inner
  | left
deriving DecidableEq

namespace Relation

/-- Modelled from the spec: `join` builds the columns of both sides and the
rows satisfying the on-condition (left joins keep unmatched left rows padded
with NULLs); the bound schema is dropped. -/
def join (r other : Relation) (kind : JoinKind) (cond : NamedRow → NamedRow → Bool) :
    Relation :=
  { cols := r.cols ++ other.cols,
    rows := (r.rows.map (fun lrow =>
      let hits := other.rows.filter (fun rrow => cond (r.named lrow) (other.named rrow))
      match kind, hits with
      | .left, [] => [lrow ++ other.cols.map (fun _ => Value.null)]
      | _, hs => hs.map (fun rrow => lrow ++ rrow))).flatten,
    model := none }

end Relation

/-- Reorder a named source row into the target column order: for each target
column name, the first value carried under that name. -/
def reorderRow (targetNames : List String) (source : NamedRow) : List Value :=
  targetNames.filterMap (fun c => List.lookup c source)

/-- The union composition-error message. -/
def unionErrorMsg : String :=
  "Union between relations with different column names is not allowed"

namespace Relation

/-- The two relations carry the same set of column names (order-insensitive). -/
def sameColumnSet (r s : Relation) : Bool :=
  r.columns.all (fun c => s.columns.contains c)
    && s.columns.all (fun c => r.columns.contains c)

/-- Modelled from the spec: `union` (UNION ALL, also the `+` operator)
requires identical column-name sets on both sides (order-insensitive) and
fails with a type error otherwise; it appends the other relation's rows,
matched to this relation's column order by name, and never deduplicates. -/
def union (r other : Relation) : Except RelError Relation :=
  if sameColumnSet r other then
    .ok { cols := r.cols,
          rows := r.rows ++ other.rows.map (fun row => reorderRow r.columns (other.named row)),
          model := none }
  else
    .error (.typeError unionErrorMsg)

/-- The cardinality-error message of `get`, reporting the actual row count. -/
def getErrorMsg (n : Nat) : String :=
  s!"Relation.get(...) returned {n} rows!"

/-- Modelled from the spec: `get` applies `filter` with the given predicate
fragments (if any), then requires the result to contain exactly one row,
failing with a runtime error reporting the actual row count otherwise; with
no bound model it returns the dynamically-typed row object, the
(column-name, value) mapping of the single row. -/
def get (r : Relation) (ps : List (NamedRow → Bool)) : Except RelError NamedRow :=
  let filtered := r.filterAll ps
  match filtered.rows with
  | [row] => .ok (filtered.named row)
  | other => .error (.runtimeError (getErrorMsg other.length))

end Relation

/-- A materialized single-column buffer: its name, element dtype and values. -/
structure Series where
  name : String
  dtype : String
  values : List Value
deriving DecidableEq

/-- A materialized tabular buffer: ordered (column name, dtype) pairs and the
rows. -/
structure DataFrame where
  cols : List (String × String)
  rows : List (List Value)
deriving DecidableEq

/-- The column dtypes of a materialized buffer, in column order. -/
def DataFrame.dtypes (df : DataFrame) : List String :=
  df.cols.map Prod.snd

/-- The to-series cardinality-error message, reporting the actual column
count. -/
def toSeriesErrorMsg (n : Nat) : String :=
  s!"Relation has {n} columns, while exactly 1 is required in order to be converted to a Series!"

namespace Relation

/-- Modelled from the spec: `to_series` requires exactly one column and fails
with a type error reporting the actual column count otherwise; on success the
series carries the column's name, its engine dtype and its values. -/
def to_series (r : Relation) : Except RelError Series :=
  match r.cols with
  | [c] => .ok { name := c.1, dtype := c.2, values := r.rows.filterMap List.head? }
  | other => .error (.typeError (toSeriesErrorMsg other.length))

/-- Modelled from the spec: `to_df` materializes the full result as a tabular
buffer whose column dtypes come from the engine's column metadata, so an
empty result still produces a correctly-typed zero-row buffer. -/
def to_df (r : Relation) : DataFrame :=
  { cols := r.cols, rows := r.rows }

end Relation

/-- Modelled from the spec: a database table as the target of `insert_into`:
its name, its declared (column name, type) pairs in declared order, and its
current rows. -/
structure Table where
  name : String
  cols : List (String × String)
  rows : List (List Value)

/-- The declared column names of a table, in declared order. -/
def Table.columnNames (t : Table) : List String :=
  t.cols.map Prod.fst

/-- The insert-into composition-error message, naming the missing column(s)
(Python-set style) and the target table. -/
def insertIntoErrorMsg (missing : List String) (table : String) : String :=
  let missingSet := "\x7b'" ++ String.intercalate "', '" missing ++ "'\x7d"
  s!"Relation is missing column(s) {missingSet} in order to be inserted into table '{table}'!"

namespace Relation

/-- Modelled from the spec: `insert_into` requires the relation's current
columns to be a superset of the target table's declared columns, failing with
a type error naming the missing column(s) and the table otherwise; on success
it reorders the relation's columns to the table's declared order by name and
appends the rows to the table. -/
def insert_into (r : Relation) (t : Table) : Except RelError Table :=
  let missing := t.columnNames.filter (fun c => !(r.columns.contains c))
  if missing.isEmpty then
    .ok { t with rows := t.rows ++ r.rows.map (fun row => reorderRow t.columnNames (r.named row)) }
  else
    .error (.typeError (insertIntoErrorMsg missing t.name))

end Relation

/-! ## Sample data (used by the witnesses) -/

/-- A sample two-column relation, `select 1 as a, 2 as b`. -/
def sampleAB : Relation :=
  { cols := [("a", "INTEGER"), ("b", "INTEGER")],
    rows := [[Value.int 1, Value.int 2]],
    model := none }

/-- A sample two-column relation with the opposite column order,
`select 200 as b, 100 as a`. -/
def sampleBA : Relation :=
  { cols := [("b", "INTEGER"), ("a", "INTEGER")],
    rows := [[Value.int 200, Value.int 100]],
    model := none }

/-- `sampleBA` with its columns carried in the other order: the same named
values per row under a different column ordering. -/
def sampleBAReordered : Relation :=
  { cols := [("a", "INTEGER"), ("b", "INTEGER")],
    rows := [[Value.int 100, Value.int 200]],
    model := none }

/-- A sample one-column relation, `select 1 as a`. -/
def sampleA : Relation :=
  { cols := [("a", "INTEGER")],
    rows := [[Value.int 1]],
    model := none }

/-- A sample model reference. -/
def sampleModel : Model := { id := 0 }

/-- `sampleAB` with a bound model. -/
def sampleModeled : Relation :=
  { sampleAB with model := some sampleModel }

/-- A sample three-row relation mirroring the `table_name` fixture of the
test suite. -/
def sampleTable : Relation :=
  { cols := [("column_1", "INTEGER"), ("column_2", "VARCHAR")],
    rows := [[Value.int 1, Value.str "a"], [Value.int 2, Value.str "b"],
             [Value.int 3, Value.str "c"]],
    model := none }

/-- The keyword-equality filter `column_1 = 1`. -/
def predEq1 : NamedRow → Bool :=
  fun row => List.lookup "column_1" row == some (Value.int 1)

/-- A filter predicate matching no row. -/
def predNone : NamedRow → Bool := fun _ => false

/-! ## General lemmas -/

theorem contains_true_iff {α : Type} [BEq α] [LawfulBEq α] (l : List α) (a : α) :
    l.contains a = true ↔ a ∈ l := by
  simp [List.contains, List.elem_iff]

theorem rowEqb_iff {a b : NamedRow} :
    rowEqb a b = true ↔ ∀ p : String × Value, p ∈ a ↔ p ∈ b := by
  simp only [rowEqb, Bool.and_eq_true, List.all_eq_true, contains_true_iff]
  constructor
  · rintro ⟨h1, h2⟩ p
    exact ⟨fun hp => h1 p hp, fun hp => h2 p hp⟩
  · intro h
    exact ⟨fun p hp => (h p).1 hp, fun p hp => (h p).2 hp⟩

theorem rowsEqb_iff : ∀ {l₁ l₂ : List NamedRow},
    rowsEqb l₁ l₂ = true ↔
      List.Forall₂ (fun a b => ∀ p : String × Value, p ∈ a ↔ p ∈ b) l₁ l₂
  | [], [] => by simp [rowsEqb]
  | [], _ :: _ => by simp [rowsEqb]
  | _ :: _, [] => by simp [rowsEqb]
  | a :: as, b :: bs => by
      simp [rowsEqb, Bool.and_eq_true, rowEqb_iff, rowsEqb_iff, List.forall₂_cons]

theorem rowsEqb_length {l₁ l₂ : List NamedRow} (h : rowsEqb l₁ l₂ = true) :
    l₁.length = l₂.length :=
  (rowsEqb_iff.mp h).length_eq

theorem toRows_length (r : Relation) : r.toRows.length = r.rows.length :=
  List.length_map r.rows r.named

theorem eqb_eq_false_of_length_ne {r s : Relation}
    (h : r.rows.length ≠ s.rows.length) : r.eqb s = false := by
  cases h' : r.eqb s with
  | false => rfl
  | true =>
      exact absurd (by simpa [toRows_length] using rowsEqb_length h') h

theorem sameColumnSet_self (r : Relation) : Relation.sameColumnSet r r = true := by
  simp [Relation.sameColumnSet, List.all_eq_true, contains_true_iff]

theorem sameColumnSet_iff (r s : Relation) :
    Relation.sameColumnSet r s = true ↔
      ((∀ c ∈ r.columns, c ∈ s.columns) ∧ (∀ c ∈ s.columns, c ∈ r.columns)) := by
  simp [Relation.sameColumnSet, List.all_eq_true, contains_true_iff]

/-! ## Claim theorems -/

/-- Claim C1: Relation equality is content equality, keyed by column name:
two relations compare equal iff their materialized results contain the same
ordered sequence of rows viewed as (column-name, value) mappings — each row
compared as a set of named columns, so the same named values under different
column orderings (rows that are permutations of one another as mappings)
compare equal; SQL text plays no role in the comparison. -/
theorem relation_eq_is_content_equality :
    (∀ r s : Relation,
        r.eqb s = true ↔
          List.Forall₂ (fun a b => ∀ p : String × Value, p ∈ a ↔ p ∈ b)
            r.toRows s.toRows) ∧
    (∀ r s : Relation,
        List.Forall₂ (fun a b : NamedRow => a.Perm b) r.toRows s.toRows →
          r.eqb s = true) := by
  refine ⟨fun r s => rowsEqb_iff, fun r s h => ?_⟩
  exact rowsEqb_iff.mpr (h.imp fun a b hp p => hp.mem_iff)

/-- Witness for C1: a relation carrying the same named values under the
opposite column ordering compares equal. -/
theorem relation_eq_is_content_equality_witness :
    sampleBA.eqb sampleBAReordered = true :=
  relation_eq_is_content_equality.2 sampleBA sampleBAReordered
    (List.Forall₂.cons (by decide) List.Forall₂.nil)

/-- Claim C2: for every relation with a bound schema, the schema is cleared
(`model` is `none`) after `project`, `join`, `aggregate`, `drop`, `rename`
and column-subscript access, and is preserved unchanged across `filter`,
`order` and `limit`; `set_model` explicitly re-binds (or clears) it. -/
theorem model_binding_rules (r : Relation) (hm : r.model.isSome = true)
    (names : List String) (n : String) (p : NamedRow → Bool)
    (le : NamedRow → NamedRow → Bool) (k : Nat)
    (other : Relation) (kind : JoinKind) (c : NamedRow → NamedRow → Bool)
    (groupBy : List String) (aggs : List AggSpec)
    (m : List (String × String)) (mo : Option Model) :
    (r.project names).model = none ∧
    (r.join other kind c).model = none ∧
    (r.aggregate groupBy aggs).model = none ∧
    (r.dropColumns names).model = none ∧
    (∀ r' : Relation, r.rename m = .ok r' → r'.model = none) ∧
    (r.getColumn n).model = none ∧
    (r.getColumns names).model = none ∧
    (r.filter p).model = r.model ∧
    (r.order le).model = r.model ∧
    (r.limit k).model = r.model ∧
    (r.set_model mo).model = mo := by
  refine ⟨rfl, rfl, rfl, rfl, ?_, rfl, rfl, rfl, rfl, rfl, rfl⟩
  intro r' heq
  rw [Relation.rename] at heq
  cases hfind : m.find? (fun q => !(r.columns.contains q.1)) with
  | some q => rw [hfind] at heq; cases heq
  | none => rw [hfind] at heq; cases heq; rfl

/-- Witness for C2: a relation with a bound model loses it on projection and
keeps it across filtering. -/
theorem model_binding_rules_witness :
    sampleModeled.model.isSome = true ∧
    (sampleModeled.project ["a"]).model = none ∧
    (sampleModeled.filter predNone).model = sampleModeled.model := by
  have h := model_binding_rules sampleModeled (by decide) ["a"] "a" predNone
    (fun _ _ => true) 1 sampleAB JoinKind.inner (fun _ _ => true) ["a"] []
    [("a", "x")] (some sampleModel)
  exact ⟨by decide, h.1, h.2.2.2.2.2.2.2.1⟩

/-- Claim C4: for every relation with at least one row, the union-all
`R + R` has exactly `2 * count R` rows and is not equal to `R`, and
union-all never deduplicates: a successful union always has exactly the sum
of the two operands' row counts. -/
theorem union_all_never_deduplicates (r : Relation) (h : 0 < r.rows.length) :
    ∃ u, r.union r = .ok u ∧ u.rows.length = 2 * r.rows.length ∧
      u.eqb r = false ∧ r.eqb u = false ∧
      ∀ s v : Relation, r.union s = .ok v →
        v.rows.length = r.rows.length + s.rows.length := by
  refine ⟨{ cols := r.cols,
            rows := r.rows ++ r.rows.map (fun row => reorderRow r.columns (r.named row)),
            model := none }, ?_, ?_, ?_, ?_, ?_⟩
  · simp [Relation.union, sameColumnSet_self]
  · simp [List.length_append, List.length_map]; omega
  · apply eqb_eq_false_of_length_ne
    simp only [List.length_append, List.length_map]
    omega
  · apply eqb_eq_false_of_length_ne
    simp only [List.length_append, List.length_map]
    omega
  · intro s v heq
    by_cases hc : Relation.sameColumnSet r s = true
    · simp only [Relation.union, hc, if_true, Except.ok.injEq] at heq
      rw [← heq]
      simp [List.length_append, List.length_map]
    · simp only [Relation.union, hc, if_false, Bool.false_eq_true, if_neg] at heq
      cases heq

/-- Witness for C4: doubling a one-row relation yields two rows and breaks
equality. -/
theorem union_all_never_deduplicates_witness :
    0 < sampleAB.rows.length ∧
    ∃ u, sampleAB.union sampleAB = .ok u ∧
      u.rows.length = 2 * sampleAB.rows.length ∧
      u.eqb sampleAB = false ∧ sampleAB.eqb u = false ∧
      ∀ s v : Relation, sampleAB.union s = .ok v →
        v.rows.length = sampleAB.rows.length + s.rows.length :=
  ⟨by decide, union_all_never_deduplicates sampleAB (by decide)⟩

/-- Claim C5: union-all (the `+` operator and `union`) fails with a type
error "Union between relations with different column names is not allowed"
exactly when the two column-name sets differ — on either side, regardless of
row contents — and succeeds whenever the column-name sets coincide, even
under different column orders. -/
theorem union_requires_same_column_names (r s : Relation) :
    ((¬ ((∀ c ∈ r.columns, c ∈ s.columns) ∧ (∀ c ∈ s.columns, c ∈ r.columns))) →
        r.union s = .error (.typeError
          "Union between relations with different column names is not allowed")) ∧
    (((∀ c ∈ r.columns, c ∈ s.columns) ∧ (∀ c ∈ s.columns, c ∈ r.columns)) →
        ∃ u, r.union s = .ok u) := by
  constructor
  · intro h
    have hc : Relation.sameColumnSet r s = false := by
      cases hc : Relation.sameColumnSet r s with
      | false => rfl
      | true => exact absurd ((sameColumnSet_iff r s).mp hc) h
    simp [Relation.union, hc, unionErrorMsg]
  · intro h
    have hc : Relation.sameColumnSet r s = true := (sameColumnSet_iff r s).mpr h
    exact ⟨{ cols := r.cols,
             rows := r.rows ++ s.rows.map (fun row => reorderRow r.columns (s.named row)),
             model := none }, by simp [Relation.union, hc]⟩

/-- Witness for C5: a one-column relation does not union with a two-column
one, while identical column-name sets in different orders union fine. -/
theorem union_requires_same_column_names_witness :
    sampleA.union sampleBA = .error (.typeError
      "Union between relations with different column names is not allowed") ∧
    ∃ u, sampleAB.union sampleBA = .ok u :=
  ⟨(union_requires_same_column_names sampleA sampleBA).1 (by decide),
   (union_requires_same_column_names sampleAB sampleBA).2 (by decide)⟩

theorem filterAll_cols (ps : List (NamedRow → Bool)) :
    ∀ r : Relation, (r.filterAll ps).cols = r.cols := by
  induction ps with
  | nil => intro r; rfl
  | cons p ps ih => intro r; exact ih (r.filter p)

theorem filterAll_rows_sublist (ps : List (NamedRow → Bool)) :
    ∀ r : Relation, (r.filterAll ps).rows.Sublist r.rows := by
  induction ps with
  | nil => intro r; exact List.Sublist.refl _
  | cons p ps ih =>
      intro r
      exact (ih (r.filter p)).trans (List.filter_sublist r.rows)

theorem filterAll_named (r : Relation) (ps : List (NamedRow → Bool))
    (row : List Value) : (r.filterAll ps).named row = r.named row := by
  simp [Relation.named, Relation.columns, filterAll_cols]

/-- When the filtered result is a single row, `get` returns that row (as a
named mapping built over the source relation's columns), and the row comes
from the source relation's row list. -/
theorem get_single (r : Relation) (ps : List (NamedRow → Bool))
    (row : List Value) (h : (r.filterAll ps).rows = [row]) :
    row ∈ r.rows ∧ r.get ps = .ok (r.named row) := by
  constructor
  · exact List.Sublist.mem (h ▸ List.mem_cons_self row []) (filterAll_rows_sublist ps r)
  · rw [Relation.get, h]
    exact congrArg Except.ok (filterAll_named r ps row)

/-- When the filtered result does not have exactly one row, `get` fails with
the runtime error reporting that row count. -/
theorem get_error (r : Relation) (ps : List (NamedRow → Bool))
    (h : (r.filterAll ps).rows.length ≠ 1) :
    r.get ps = .error (.runtimeError
      (Relation.getErrorMsg (r.filterAll ps).rows.length)) := by
  rw [Relation.get]
  rcases hrows : (r.filterAll ps).rows with _ | ⟨row, _ | ⟨row2, rest⟩⟩
  · rfl
  · exact absurd (by simp [hrows]) h
  · rfl

/-- Claim C3: `get` applies the filter fragments (if any) and then demands
exactly one row of the filtered result: with exactly one row it returns that
row as a constructed row object whose field values are the source row's
values; with zero or several rows it fails with a runtime error whose
message (`getErrorMsg`) reports the actual row count. -/
theorem get_cardinality_contract (r : Relation) (ps : List (NamedRow → Bool)) :
    ((r.filterAll ps).rows.length = 1 →
        ∃ row ∈ r.rows, (r.filterAll ps).rows = [row] ∧
          r.get ps = .ok (r.named row)) ∧
    ((r.filterAll ps).rows.length ≠ 1 →
        r.get ps = .error (.runtimeError
          (Relation.getErrorMsg (r.filterAll ps).rows.length))) := by
  constructor
  · intro h1
    rcases hrows : (r.filterAll ps).rows with _ | ⟨row, _ | ⟨row2, rest⟩⟩
    · rw [hrows] at h1; simp at h1
    · obtain ⟨hmem, hget⟩ := get_single r ps row hrows
      exact ⟨row, hmem, rfl, hget⟩
    · rw [hrows] at h1; simp at h1
  · exact get_error r ps

/-- Witness for C3: on the three-row sample table, filtering `column_1 = 1`
makes `get` succeed with the matching row, and a never-true filter makes it
fail reporting zero rows. -/
theorem get_cardinality_contract_witness :
    (sampleTable.filterAll [predEq1]).rows.length = 1 ∧
    (∃ row ∈ sampleTable.rows, (sampleTable.filterAll [predEq1]).rows = [row] ∧
        sampleTable.get [predEq1] = .ok (sampleTable.named row)) ∧
    sampleTable.get [predNone] = .error (.runtimeError
      (Relation.getErrorMsg (sampleTable.filterAll [predNone]).rows.length)) :=
  ⟨by decide,
   (get_cardinality_contract sampleTable [predEq1]).1 (by decide),
   (get_cardinality_contract sampleTable [predNone]).2 (by decide)⟩

/-- Claim C9: a relation whose query result has zero rows still materializes
via `to_df` into a zero-row buffer whose column dtypes equal those of the
non-empty source relation it was filtered from — the dtypes come from the
column metadata carried by the relation, never from the (absent) data. -/
theorem empty_result_preserves_dtypes (r : Relation) (p : NamedRow → Bool)
    (h : (r.filter p).rows = []) :
    ((r.filter p).to_df).rows = [] ∧
    ((r.filter p).to_df).dtypes = (r.to_df).dtypes ∧
    ((r.filter p).to_df).dtypes = r.types :=
  ⟨h, rfl, rfl⟩

/-- Witness for C9: filtering the sample table down to zero rows keeps its
INTEGER/VARCHAR dtypes. -/
theorem empty_result_preserves_dtypes_witness :
    (sampleTable.filter predNone).rows = [] ∧
    ((sampleTable.filter predNone).to_df).rows = [] ∧
    ((sampleTable.filter predNone).to_df).dtypes = (sampleTable.to_df).dtypes ∧
    ((sampleTable.filter predNone).to_df).dtypes = sampleTable.types :=
  ⟨by decide, empty_result_preserves_dtypes sampleTable predNone (by decide)⟩

/-- Claim C10: on a relation with no bound model, `get` and iteration build
interchangeable row objects: when a filter matches exactly one row, `get`
returns exactly the corresponding element of the iteration sequence
(`toRows`), so attribute access per column name agrees on both. -/
theorem get_matches_iteration (r : Relation) (p : NamedRow → Bool)
    (hm : r.model = none) (h1 : (r.filter p).rows.length = 1) :
    ∃ row ∈ r.rows, r.get [p] = .ok (r.named row) ∧
      r.named row ∈ r.toRows := by
  rcases hrows : (r.filter p).rows with _ | ⟨row, _ | ⟨row2, rest⟩⟩
  · rw [hrows] at h1; simp at h1
  · obtain ⟨hmem, hget⟩ := get_single r [p] row hrows
    exact ⟨row, hmem, hget, List.mem_map_of_mem r.named hmem⟩
  · rw [hrows] at h1; simp at h1

/-- Witness for C10: on the sample table, `get` over `column_1 = 1` returns
an element of the iteration sequence. -/
theorem get_matches_iteration_witness :
    sampleTable.model = none ∧ (sampleTable.filter predEq1).rows.length = 1 ∧
    ∃ row ∈ sampleTable.rows, sampleTable.get [predEq1] = .ok (sampleTable.named row) ∧
      sampleTable.named row ∈ sampleTable.toRows :=
  ⟨rfl, by decide, get_matches_iteration sampleTable predEq1 rfl (by decide)⟩

theorem lookup_zip_isSome {names : List String} {vals : List Value} {c : String}
    (hc : c ∈ names) (hlen : names.length ≤ vals.length) :
    (List.lookup c (names.zip vals)).isSome = true := by
  induction names generalizing vals with
  | nil => cases hc
  | cons n ns ih =>
      cases vals with
      | nil => simp at hlen
      | cons v vs =>
          rw [List.zip_cons_cons, List.lookup_cons]
          cases hcn : c == n with
          | true => rfl
          | false =>
              rcases List.mem_cons.mp hc with rfl | hc'
              · rw [beq_self_eq_true] at hcn; cases hcn
              · exact ih hc' (by simpa using Nat.le_of_succ_le_succ hlen)

theorem reorderRow_cons {n : String} {ns : List String} {source : NamedRow}
    {v : Value} (hv : List.lookup n source = some v) :
    reorderRow (n :: ns) source = v :: reorderRow ns source := by
  simp [reorderRow, List.filterMap_cons, hv]

/-- Looking a target column name up in the reordered row agrees with looking
it up in the named source row. -/
theorem lookup_zip_reorder {names : List String} {source : NamedRow} {c : String}
    (hall : ∀ n ∈ names, (List.lookup n source).isSome = true) (hc : c ∈ names) :
    List.lookup c (names.zip (reorderRow names source)) = List.lookup c source := by
  induction names with
  | nil => cases hc
  | cons n ns ih =>
      obtain ⟨v, hv⟩ := Option.isSome_iff_exists.mp (hall n (List.mem_cons_self n ns))
      rw [reorderRow_cons hv, List.zip_cons_cons, List.lookup_cons]
      cases hcn : c == n with
      | true =>
          have : c = n := by simpa using hcn
          subst this
          exact hv.symm
      | false =>
          rcases List.mem_cons.mp hc with rfl | hc'
          · rw [beq_self_eq_true] at hcn; cases hcn
          · exact ih (fun m hm => hall m (List.mem_cons.mpr (Or.inr hm))) hc'

/-- Collecting the heads of rows that all have one keeps them in
correspondence. -/
theorem forall₂_head_filterMap {rows : List (List Value)}
    (h : ∀ row ∈ rows, row.head?.isSome = true) :
    List.Forall₂ (fun row v => row.head? = some v) rows
      (rows.filterMap List.head?) := by
  induction rows with
  | nil => simp
  | cons row rest ih =>
      obtain ⟨v, hv⟩ := Option.isSome_iff_exists.mp (h row (List.mem_cons_self row rest))
      rw [List.filterMap_cons, hv]
      exact List.Forall₂.cons hv (ih fun q hq => h q (List.mem_cons.mpr (Or.inr hq)))

theorem columns_length (r : Relation) : r.columns.length = r.cols.length :=
  List.length_map r.cols Prod.fst

/-- Claim C8: `to_series` succeeds iff the relation has exactly one column:
with one column it returns a series named after that column carrying the
column's values; otherwise it fails with a type error whose message
(`toSeriesErrorMsg`) reports the actual column count. -/
theorem to_series_contract (r : Relation)
    (hwf : ∀ row ∈ r.rows, row.length = r.columns.length) :
    (r.columns.length = 1 →
        ∃ s, r.to_series = .ok s ∧ (∃ ty, r.cols = [(s.name, ty)]) ∧
          List.Forall₂ (fun row v => row.head? = some v) r.rows s.values) ∧
    (r.columns.length ≠ 1 →
        r.to_series = .error (.typeError (toSeriesErrorMsg r.columns.length))) := by
  constructor
  · intro h1
    rcases hcols : r.cols with _ | ⟨c, _ | ⟨c2, rest⟩⟩
    · rw [columns_length, hcols] at h1; simp at h1
    · refine ⟨{ name := c.1, dtype := c.2, values := r.rows.filterMap List.head? },
        ?_, ⟨c.2, by simp⟩, ?_⟩
      · rw [Relation.to_series, hcols]
      · apply forall₂_head_filterMap
        intro row hrow
        have hl : row.length = 1 := by
          simp [hwf row hrow, columns_length, hcols]
        cases row with
        | nil => simp at hl
        | cons v vs => rfl
    · rw [columns_length, hcols] at h1; simp at h1
  · intro hne
    rcases hcols : r.cols with _ | ⟨c, _ | ⟨c2, rest⟩⟩
    · rw [Relation.to_series, hcols, columns_length, hcols]
    · exact absurd (by simp [columns_length, hcols]) hne
    · rw [Relation.to_series, hcols, columns_length, hcols]

/-- A sample one-column relation holding the first column of the sample
table. -/
def sampleSingle : Relation :=
  { cols := [("column_1", "INTEGER")],
    rows := [[Value.int 1], [Value.int 2], [Value.int 3]],
    model := none }

/-- Witness for C8: the one-column sample becomes a series of that column;
the two-column sample table is refused with the count in the message. -/
theorem to_series_contract_witness :
    (∃ s, sampleSingle.to_series = .ok s ∧
        (∃ ty, sampleSingle.cols = [(s.name, ty)]) ∧
        List.Forall₂ (fun row v => row.head? = some v) sampleSingle.rows s.values) ∧
    sampleTable.to_series = .error (.typeError
      (toSeriesErrorMsg sampleTable.columns.length)) :=
  ⟨(to_series_contract sampleSingle (by decide)).1 (by decide),
   (to_series_contract sampleTable (by decide)).2 (by decide)⟩

theorem not_contains_iff (l : List String) (a : String) :
    (!(l.contains a)) = true ↔ a ∉ l := by
  simp [contains_true_iff]

/-- Claim C7: `insert_into` succeeds iff the relation's current columns are
a superset of the target table's declared columns.  With a missing declared
column it fails with a type error naming the missing column(s) and the
table (`insertIntoErrorMsg`); otherwise the rows are appended to the table
with each value landing in the declared column of the same name — the
relation's columns are matched by name, not position, so a column-permuted
relation inserts correctly. -/
theorem insert_into_contract (r : Relation) (t : Table)
    (hwf : ∀ row ∈ r.rows, row.length = r.columns.length) :
    ((∃ c ∈ t.columnNames, c ∉ r.columns) →
        ∃ missing, missing ≠ [] ∧
          (∀ c ∈ missing, c ∈ t.columnNames ∧ c ∉ r.columns) ∧
          r.insert_into t = .error (.typeError (insertIntoErrorMsg missing t.name))) ∧
    ((∀ c ∈ t.columnNames, c ∈ r.columns) →
        ∃ t', r.insert_into t = .ok t' ∧
          t'.rows.length = t.rows.length + r.rows.length ∧
          t'.rows.take t.rows.length = t.rows ∧
          List.Forall₂ (fun row row' => ∀ c ∈ t.columnNames,
              List.lookup c (t.columnNames.zip row') =
                List.lookup c (r.named row))
            r.rows (t'.rows.drop t.rows.length)) := by
  constructor
  · rintro ⟨c, hct, hcr⟩
    refine ⟨t.columnNames.filter (fun d => !(r.columns.contains d)), ?_, ?_, ?_⟩
    · exact List.ne_nil_of_mem
        (List.mem_filter.mpr ⟨hct, (not_contains_iff _ _).mpr hcr⟩)
    · intro d hd
      obtain ⟨hd1, hd2⟩ := List.mem_filter.mp hd
      exact ⟨hd1, (not_contains_iff _ _).mp hd2⟩
    · have hne : (t.columnNames.filter (fun d => !(r.columns.contains d))).isEmpty
          = false := by
        cases h' : (t.columnNames.filter (fun d => !(r.columns.contains d))).isEmpty with
        | false => rfl
        | true =>
            exact absurd (List.isEmpty_iff.mp h')
              (List.ne_nil_of_mem
                (List.mem_filter.mpr ⟨hct, (not_contains_iff _ _).mpr hcr⟩))
      simp only [Relation.insert_into, hne, Bool.false_eq_true, if_false]
  · intro hsup
    have hmiss : t.columnNames.filter (fun d => !(r.columns.contains d)) = [] :=
      List.filter_eq_nil_iff.mpr fun a ha h' => (not_contains_iff _ _).mp h' (hsup a ha)
    refine ⟨{ t with
        rows := t.rows ++ r.rows.map (fun row => reorderRow t.columnNames (r.named row)) },
      ?_, ?_, ?_, ?_⟩
    · simp [Relation.insert_into, hmiss]
      exact hsup
    · simp [List.length_append, List.length_map]
    · exact List.take_left t.rows _
    · rw [List.drop_left]
      refine List.forall₂_map_right_iff.mpr (List.forall₂_same.mpr ?_)
      intro row hrow c hc
      exact lookup_zip_reorder
        (fun n hn => lookup_zip_isSome (hsup n hn) (le_of_eq (hwf row hrow).symm)) hc

/-- A sample target table `foo (a integer, b integer)`. -/
def sampleFooTable : Table :=
  { name := "foo", cols := [("a", "INTEGER"), ("b", "INTEGER")], rows := [] }

/-- A sample relation `select 2 as b, 1 as a`, a column permutation of the
target table. -/
def sampleInsertBA : Relation :=
  { cols := [("b", "INTEGER"), ("a", "INTEGER")],
    rows := [[Value.int 2, Value.int 1]], model := none }

/-- A sample relation `select 2 as b, 1 as c`, missing column `a`. -/
def sampleInsertBC : Relation :=
  { cols := [("b", "INTEGER"), ("c", "INTEGER")],
    rows := [[Value.int 2, Value.int 1]], model := none }

/-- Witness for C7: the column-permuted relation inserts by name; the
relation missing column `a` is refused naming it. -/
theorem insert_into_contract_witness :
    (∃ missing, missing ≠ [] ∧
        (∀ c ∈ missing, c ∈ sampleFooTable.columnNames ∧ c ∉ sampleInsertBC.columns) ∧
        sampleInsertBC.insert_into sampleFooTable =
          .error (.typeError (insertIntoErrorMsg missing sampleFooTable.name))) ∧
    (∃ t', sampleInsertBA.insert_into sampleFooTable = .ok t' ∧
        t'.rows.length = sampleFooTable.rows.length + sampleInsertBA.rows.length ∧
        t'.rows.take sampleFooTable.rows.length = sampleFooTable.rows ∧
        List.Forall₂ (fun row row' => ∀ c ∈ sampleFooTable.columnNames,
            List.lookup c (sampleFooTable.columnNames.zip row') =
              List.lookup c (sampleInsertBA.named row))
          sampleInsertBA.rows (t'.rows.drop sampleFooTable.rows.length)) :=
  ⟨(insert_into_contract sampleInsertBC sampleFooTable (by decide)).1 (by decide),
   (insert_into_contract sampleInsertBA sampleFooTable (by decide)).2 (by decide)⟩

/-- Claim C6: `rename` with a source column name absent from the current
column list fails with a `ValueError` whose message (`renameErrorMsg`) states
the missing name and lists the relation's current columns; renaming a column
onto an existing column name succeeds and collapses to a single column
holding the renamed source column's value (last value wins). -/
theorem rename_contract :
    (∀ (r : Relation) (m : List (String × String)),
        (∃ q ∈ m, q.1 ∉ r.columns) →
        ∃ old, old ∉ r.columns ∧ (∃ nw, (old, nw) ∈ m) ∧
          r.rename m = .error (.valueError (renameErrorMsg old r.columns))) ∧
    (∀ (na nb ta tb : String) (pairs : List (Value × Value)) (mo : Option Model),
        na ≠ nb →
        ∃ r', Relation.rename
            { cols := [(na, ta), (nb, tb)],
              rows := pairs.map (fun q => [q.1, q.2]),
              model := mo } [(nb, na)] = .ok r' ∧
          r'.columns = [na] ∧ r'.rows = pairs.map (fun q => [q.2])) := by
  constructor
  · rintro r m ⟨q, hq, hqn⟩
    have hsat : ∃ x ∈ m, (!(r.columns.contains x.1)) = true :=
      ⟨q, hq, (not_contains_iff _ _).mpr hqn⟩
    obtain ⟨a, hfind⟩ := Option.isSome_iff_exists.mp (List.find?_isSome.mpr hsat)
    have hp := List.find?_some hfind
    refine ⟨a.1, (not_contains_iff _ _).mp (by simpa using hp), ⟨a.2, ?_⟩, ?_⟩
    · simpa using List.mem_of_find?_eq_some hfind
    · rw [Relation.rename, hfind]
  · intro na nb ta tb pairs mo hne
    have h1 : (na == nb) = false := beq_eq_false_iff_ne.mpr hne
    have h2 : (nb == na) = false := beq_eq_false_iff_ne.mpr (Ne.symm hne)
    refine ⟨{ cols := [(na, tb)], rows := pairs.map (fun q => [q.2]), model := none },
      ?_, rfl, ?_⟩
    · simp [Relation.rename, Relation.columns, Relation.named, collapseBindings,
        List.find?, List.lookup, List.filter, h1, h2, hne, List.map_map, Function.comp]
    · rfl

/-- Witness for C6: renaming the absent column `x` on the `a, b` relation is
refused listing `a, b`; renaming `b` onto the existing `a` collapses to one
column carrying `b`'s value. -/
theorem rename_contract_witness :
    (∃ old, old ∉ sampleAB.columns ∧ (∃ nw, (old, nw) ∈ [("x", "y")]) ∧
        sampleAB.rename [("x", "y")] =
          .error (.valueError (renameErrorMsg old sampleAB.columns))) ∧
    (∃ r', Relation.rename
        { cols := [("a", "INTEGER"), ("b", "INTEGER")],
          rows := [((Value.int 1 : Value), (Value.int 2 : Value))].map (fun q => [q.1, q.2]),
          model := none } [("b", "a")] = .ok r' ∧
      r'.columns = ["a"] ∧
      r'.rows = [((Value.int 1 : Value), (Value.int 2 : Value))].map (fun q => [q.2])) :=
  ⟨rename_contract.1 sampleAB [("x", "y")] ⟨("x", "y"), by decide, by decide⟩,
   rename_contract.2 "a" "b" "INTEGER" "INTEGER"
     [((Value.int 1 : Value), (Value.int 2 : Value))] none (by decide)⟩

end Patito
